import Mathlib

/-!
Verification of the MLtune tuner configuration and dashboard modules.

The definitions below are shallow embeddings of the Python sources:
  - `src/mltune/tuner/config.py` (CoefficientConfig, TunerConfig)
  - `src/scripts/tuner_daemon.py` (robot IP computation in `main`)
  - `src/dashboard/app.py` (COEFFICIENT_CONFIG, clamp_coefficient_value,
    handle_shot_recording)
  - the shot-polling interface (`read_shot_data`), modelled from the spec
    because `nt_interface.py` is not part of the available sources.

Python floats are modelled as rationals, Python ints as integers
(naturals where the source guarantees non-negativity), Python strings as
Lean strings, and dicts as insertion-ordered association lists.
-/

namespace MLtune

/-- Model of the Python built-in `round`: round half to even
(banker's rounding), as used by `CoefficientConfig.clamp`. -/
def pyRound (q : ℚ) : ℤ :=
  if q - ⌊q⌋ < 1/2 then ⌊q⌋
  else if q - ⌊q⌋ > 1/2 then ⌊q⌋ + 1
  else if ⌊q⌋ % 2 = 0 then ⌊q⌋ else ⌊q⌋ + 1

/-- Configuration for a single tunable coefficient
(`CoefficientConfig` dataclass in src/mltune/tuner/config.py). -/
structure CoefficientConfig where
  name : String
  default_value : ℚ
  min_value : ℚ
  max_value : ℚ
  initial_step_size : ℚ
  step_decay_rate : ℚ
  is_integer : Bool
  enabled : Bool
  nt_key : String
  autotune_override : Bool
  autotune_enabled : Bool
  autotune_shot_threshold : ℤ
  auto_advance_override : Bool
  auto_advance_on_success : Bool
  auto_advance_shot_threshold : ℤ
deriving DecidableEq

/-- Embedding of `CoefficientConfig.clamp` (config.py lines 73-86):
clamp to the allowed range, then round to a whole number when
`is_integer` is set. -/
def CoefficientConfig.clamp (c : CoefficientConfig) (value : ℚ) : ℚ :=
  let clamped := max c.min_value (min c.max_value value)
  if c.is_integer then (pyRound clamped : ℚ) else clamped

/-- Embedding of `CoefficientConfig.get_effective_autotune_settings`
(config.py lines 88-110). The Python default `force_global=False` is a
plain argument here. -/
def CoefficientConfig.get_effective_autotune_settings (c : CoefficientConfig)
    (global_enabled : Bool) (global_threshold : ℤ) (force_global : Bool) :
    Bool × ℤ :=
  if force_global then (global_enabled, global_threshold)
  else if c.autotune_override then (c.autotune_enabled, c.autotune_shot_threshold)
  else (global_enabled, global_threshold)

/-- Embedding of `CoefficientConfig.get_effective_auto_advance_settings`
(config.py lines 112-134). -/
def CoefficientConfig.get_effective_auto_advance_settings (c : CoefficientConfig)
    (global_auto_advance : Bool) (global_threshold : ℤ) (force_global : Bool) :
    Bool × ℤ :=
  if force_global then (global_auto_advance, global_threshold)
  else if c.auto_advance_override then (c.auto_advance_on_success, c.auto_advance_shot_threshold)
  else (global_auto_advance, global_threshold)

/-- The spec wording of policy resolution, used to compare the two
resolution functions: effective = force_global ? global :
(override_present ? local : global). -/
def specPolicyResolution (force_global override_present : Bool)
    (localPair globalPair : Bool × ℤ) : Bool × ℤ :=
  if force_global then globalPair
  else if override_present then localPair
  else globalPair

/-- The fields of `TunerConfig` (config.py) that the validation pass and
the campaign-sequence computation read. The coefficient dictionary is an
insertion-ordered association list, as a Python dict. -/
structure TunerConfig where
  COEFFICIENTS : List (String × CoefficientConfig)
  TUNING_ORDER : List String
  N_INITIAL_POINTS : ℤ
  N_CALLS_PER_COEFFICIENT : ℤ
  MAX_NT_WRITE_RATE_HZ : ℚ
  MAX_NT_READ_RATE_HZ : ℚ
  PHYSICAL_MAX_VELOCITY_MPS : ℚ
  PHYSICAL_MIN_VELOCITY_MPS : ℚ
  PHYSICAL_MAX_ANGLE_RAD : ℚ
  PHYSICAL_MIN_ANGLE_RAD : ℚ
  PHYSICAL_MAX_DISTANCE_M : ℚ
  PHYSICAL_MIN_DISTANCE_M : ℚ
  TUNER_UPDATE_RATE_HZ : ℚ
deriving DecidableEq

/-- Embedding of `TunerConfig.get_enabled_coefficients_in_order`
(config.py lines 326-332): the coefficients of TUNING_ORDER that are
defined and enabled, in order. -/
def TunerConfig.get_enabled_coefficients_in_order (cfg : TunerConfig) :
    List CoefficientConfig :=
  cfg.TUNING_ORDER.filterMap fun name =>
    match List.lookup name cfg.COEFFICIENTS with
    | some c => if c.enabled then some c else none
    | none => none

/-- The per-coefficient checks of `TunerConfig.validate_config`
(config.py lines 354-366), in source order. -/
def coefficientWarnings (name : String) (c : CoefficientConfig) : List String :=
  (if c.min_value ≥ c.max_value
    then [name ++ ": min_value must be < max_value"] else []) ++
  (if c.default_value < c.min_value ∨ c.default_value > c.max_value
    then [name ++ ": default_value outside valid range"] else []) ++
  (if c.initial_step_size ≤ 0
    then [name ++ ": initial_step_size must be positive"] else []) ++
  (if ¬(0 < c.step_decay_rate ∧ c.step_decay_rate ≤ 1)
    then [name ++ ": step_decay_rate must be in (0, 1]"] else [])

/-- Embedding of `TunerConfig.validate_config` (config.py lines 334-395):
collect human-readable warnings for every violated configuration
invariant, in source order. -/
def TunerConfig.validate_config (cfg : TunerConfig) : List String :=
  ((cfg.COEFFICIENTS.filter fun p => p.2.enabled).filterMap fun p =>
    if p.1 ∈ cfg.TUNING_ORDER then none
    else some ("Enabled coefficient " ++ p.1 ++ " not in TUNING_ORDER")) ++
  (cfg.TUNING_ORDER.filterMap fun name =>
    if (List.lookup name cfg.COEFFICIENTS).isSome = true then none
    else some ("Coefficient " ++ name ++ " in TUNING_ORDER but not defined")) ++
  (cfg.COEFFICIENTS.flatMap fun p => coefficientWarnings p.1 p.2) ++
  (if cfg.PHYSICAL_MIN_VELOCITY_MPS ≥ cfg.PHYSICAL_MAX_VELOCITY_MPS
    then ["PHYSICAL_MIN_VELOCITY_MPS >= PHYSICAL_MAX_VELOCITY_MPS"] else []) ++
  (if cfg.PHYSICAL_MIN_ANGLE_RAD ≥ cfg.PHYSICAL_MAX_ANGLE_RAD
    then ["PHYSICAL_MIN_ANGLE_RAD >= PHYSICAL_MAX_ANGLE_RAD"] else []) ++
  (if cfg.PHYSICAL_MIN_DISTANCE_M ≥ cfg.PHYSICAL_MAX_DISTANCE_M
    then ["PHYSICAL_MIN_DISTANCE_M >= PHYSICAL_MAX_DISTANCE_M"] else []) ++
  (if cfg.N_INITIAL_POINTS < 1
    then ["N_INITIAL_POINTS must be >= 1"] else []) ++
  (if cfg.N_CALLS_PER_COEFFICIENT < cfg.N_INITIAL_POINTS
    then ["N_CALLS_PER_COEFFICIENT must be >= N_INITIAL_POINTS"] else []) ++
  (if cfg.TUNER_UPDATE_RATE_HZ ≤ 0
    then ["TUNER_UPDATE_RATE_HZ must be positive"] else []) ++
  (if cfg.MAX_NT_WRITE_RATE_HZ ≤ 0
    then ["MAX_NT_WRITE_RATE_HZ must be positive"] else []) ++
  (if cfg.MAX_NT_READ_RATE_HZ ≤ 0
    then ["MAX_NT_READ_RATE_HZ must be positive"] else [])

/-- The per-coefficient configuration invariant from the spec: min < max,
default within range, positive initial step, decay rate in (0, 1]. -/
def coefficientInvariantsOk (c : CoefficientConfig) : Prop :=
  c.min_value < c.max_value ∧
  c.min_value ≤ c.default_value ∧ c.default_value ≤ c.max_value ∧
  0 < c.initial_step_size ∧
  0 < c.step_decay_rate ∧ c.step_decay_rate ≤ 1

/-- Number of violated per-coefficient checks, mirrored from the four
conditions of `coefficientWarnings`. -/
def coefficientViolationCount (c : CoefficientConfig) : ℕ :=
  (if c.min_value ≥ c.max_value then 1 else 0) +
  (if c.default_value < c.min_value ∨ c.default_value > c.max_value then 1 else 0) +
  (if c.initial_step_size ≤ 0 then 1 else 0) +
  (if ¬(0 < c.step_decay_rate ∧ c.step_decay_rate ≤ 1) then 1 else 0)

/-- Validity of the three physical-limit pairs checked by validate_config. -/
def TunerConfig.physicalLimitsOk (cfg : TunerConfig) : Prop :=
  cfg.PHYSICAL_MIN_VELOCITY_MPS < cfg.PHYSICAL_MAX_VELOCITY_MPS ∧
  cfg.PHYSICAL_MIN_ANGLE_RAD < cfg.PHYSICAL_MAX_ANGLE_RAD ∧
  cfg.PHYSICAL_MIN_DISTANCE_M < cfg.PHYSICAL_MAX_DISTANCE_M

/-- Validity of the system parameters checked by validate_config. -/
def TunerConfig.systemParamsOk (cfg : TunerConfig) : Prop :=
  1 ≤ cfg.N_INITIAL_POINTS ∧
  cfg.N_INITIAL_POINTS ≤ cfg.N_CALLS_PER_COEFFICIENT ∧
  0 < cfg.TUNER_UPDATE_RATE_HZ ∧
  0 < cfg.MAX_NT_WRITE_RATE_HZ ∧
  0 < cfg.MAX_NT_READ_RATE_HZ

theorem pyRound_ge (q : ℚ) : q - 1/2 ≤ (pyRound q : ℚ) := by
  have h0 : (0 : ℚ) ≤ q - ⌊q⌋ := by
    have := Int.floor_le q
    linarith
  have h1 : q - ⌊q⌋ < 1 := by
    have := Int.lt_floor_add_one q
    push_cast at this ⊢
    linarith
  unfold pyRound
  split
  · linarith
  · split
    · push_cast
      linarith
    · split <;> push_cast <;> linarith

theorem pyRound_le (q : ℚ) : (pyRound q : ℚ) ≤ q + 1/2 := by
  have h0 : (0 : ℚ) ≤ q - ⌊q⌋ := by
    have := Int.floor_le q
    linarith
  unfold pyRound
  split
  · linarith
  · rename_i hlt
    push_neg at hlt
    split
    · push_cast
      linarith
    · rename_i hgt
      push_neg at hgt
      have heq : q - ⌊q⌋ = 1/2 := le_antisymm hgt hlt
      split <;> push_cast <;> linarith

theorem pyRound_ge_int {m : ℤ} {q : ℚ} (h : (m : ℚ) ≤ q) : m ≤ pyRound q := by
  have h1 : (m : ℚ) - 1/2 ≤ (pyRound q : ℚ) := le_trans (by linarith) (pyRound_ge q)
  have h2 : (m - 1 : ℤ) < pyRound q := by
    rw [← @Int.cast_lt ℚ]
    push_cast
    linarith
  omega

theorem pyRound_le_int {M : ℤ} {q : ℚ} (h : q ≤ (M : ℚ)) : pyRound q ≤ M := by
  have h1 : (pyRound q : ℚ) ≤ (M : ℚ) + 1/2 := le_trans (pyRound_le q) (by linarith)
  have h2 : pyRound q < M + 1 := by
    rw [← @Int.cast_lt ℚ]
    push_cast
    linarith
  omega

/-- C4: for a coefficient with is_integer = False and min_value ≤ max_value,
`clamp(value)` equals max(min_value, min(max_value, value)) and lies within
[min_value, max_value] for every input value. -/
theorem clamp_real_eq_and_within_bounds (c : CoefficientConfig) (value : ℚ)
    (hint : c.is_integer = false) (hb : c.min_value ≤ c.max_value) :
    c.clamp value = max c.min_value (min c.max_value value) ∧
    c.min_value ≤ c.clamp value ∧ c.clamp value ≤ c.max_value := by
  have heq : c.clamp value = max c.min_value (min c.max_value value) := by
    simp [CoefficientConfig.clamp, hint]
  refine ⟨heq, ?_, ?_⟩
  · rw [heq]
    exact le_max_left _ _
  · rw [heq]
    exact max_le hb (min_le_left _ _)

/-- Witness for C4 at a concrete coefficient and an input far above the bounds. -/
theorem clamp_real_eq_and_within_bounds_witness :
    let c : CoefficientConfig :=
      { name := "kShooterRPM", default_value := 3, min_value := 1, max_value := 5,
        initial_step_size := 1, step_decay_rate := 1, is_integer := false,
        enabled := true, nt_key := "/T/kShooterRPM",
        autotune_override := false, autotune_enabled := false,
        autotune_shot_threshold := 10, auto_advance_override := false,
        auto_advance_on_success := false, auto_advance_shot_threshold := 10 }
    c.clamp 1000000 = max c.min_value (min c.max_value 1000000) ∧
    c.min_value ≤ c.clamp 1000000 ∧ c.clamp 1000000 ≤ c.max_value :=
  clamp_real_eq_and_within_bounds _ 1000000 rfl (by norm_num)

/-- A concrete integer-mode coefficient with non-integer bounds;
rounding after clamping escapes the [min_value, max_value] interval. -/
def intModeFractionalBounds : CoefficientConfig :=
  { name := "kFrac", default_value := 7/10, min_value := 3/5, max_value := 9/10,
    initial_step_size := 1/10, step_decay_rate := 9/10, is_integer := true,
    enabled := true, nt_key := "/T/kFrac",
    autotune_override := false, autotune_enabled := false,
    autotune_shot_threshold := 10, auto_advance_override := false,
    auto_advance_on_success := false, auto_advance_shot_threshold := 10 }

/-- C1 counterexample: with min_value = 3/5 ≤ max_value = 9/10 and
is_integer = True, `clamp(7/10)` returns 1, which is strictly above
max_value, so the result does not lie within [min_value, max_value]. -/
theorem clamp_integer_escapes_fractional_bounds :
    intModeFractionalBounds.min_value ≤ intModeFractionalBounds.max_value ∧
    intModeFractionalBounds.is_integer = true ∧
    intModeFractionalBounds.clamp (7/10) = 1 ∧
    intModeFractionalBounds.max_value < intModeFractionalBounds.clamp (7/10) := by
  have hmaxmin : max (3/5 : ℚ) (min (9/10) (7/10)) = 7/10 := by
    rw [min_eq_right (by norm_num), max_eq_right (by norm_num)]
  have hclamp : intModeFractionalBounds.clamp (7/10) = 1 := by
    simp only [CoefficientConfig.clamp, intModeFractionalBounds, hmaxmin, if_true]
    norm_num [pyRound]
  exact ⟨by norm_num [intModeFractionalBounds], rfl, hclamp,
    by rw [hclamp]; norm_num [intModeFractionalBounds]⟩

/-- C1 amended: for is_integer = True and min_value ≤ max_value, `clamp`
returns a whole number lying within [min_value - 1/2, max_value + 1/2];
when min_value and max_value are themselves whole numbers the result lies
within [min_value, max_value]. -/
theorem clamp_integer_whole_and_bounds (c : CoefficientConfig) (value : ℚ)
    (hb : c.min_value ≤ c.max_value) (hint : c.is_integer = true) :
    (∃ k : ℤ, c.clamp value = (k : ℚ)) ∧
    c.min_value - 1/2 ≤ c.clamp value ∧ c.clamp value ≤ c.max_value + 1/2 ∧
    ∀ m M : ℤ, c.min_value = (m : ℚ) → c.max_value = (M : ℚ) →
      c.min_value ≤ c.clamp value ∧ c.clamp value ≤ c.max_value := by
  set x := max c.min_value (min c.max_value value) with hx
  have hx1 : c.min_value ≤ x := le_max_left _ _
  have hx2 : x ≤ c.max_value := max_le hb (min_le_left _ _)
  have heq : c.clamp value = (pyRound x : ℚ) := by
    simp [CoefficientConfig.clamp, hint, hx]
  refine ⟨⟨pyRound x, heq⟩, ?_, ?_, ?_⟩
  · rw [heq]
    have := pyRound_ge x
    linarith
  · rw [heq]
    have := pyRound_le x
    linarith
  · intro m M hm hM
    constructor
    · rw [heq, hm]
      exact_mod_cast pyRound_ge_int (le_trans (le_of_eq hm.symm) hx1)
    · rw [heq, hM]
      exact_mod_cast pyRound_le_int (le_trans hx2 (le_of_eq hM))

/-- Witness for the amended C1 at a concrete integer-bounds coefficient. -/
theorem clamp_integer_whole_and_bounds_witness :
    let c : CoefficientConfig :=
      { name := "kShooterAngle", default_value := 45, min_value := 0, max_value := 90,
        initial_step_size := 1, step_decay_rate := 1, is_integer := true,
        enabled := true, nt_key := "/T/kShooterAngle",
        autotune_override := false, autotune_enabled := false,
        autotune_shot_threshold := 10, auto_advance_override := false,
        auto_advance_on_success := false, auto_advance_shot_threshold := 10 }
    (∃ k : ℤ, c.clamp 1000 = (k : ℚ)) ∧
    c.min_value - 1/2 ≤ c.clamp 1000 ∧ c.clamp 1000 ≤ c.max_value + 1/2 ∧
    ∀ m M : ℤ, c.min_value = (m : ℚ) → c.max_value = (M : ℚ) →
      c.min_value ≤ c.clamp 1000 ∧ c.clamp 1000 ≤ c.max_value :=
  clamp_integer_whole_and_bounds _ 1000 (by norm_num) rfl

theorem length_filterMap_if {α : Type} (l : List α) (p : α → Prop)
    [DecidablePred p] (w : α → String) :
    (List.filterMap (fun x => if p x then none else some (w x)) l).length
      = List.countP (fun x => !(decide (p x))) l := by
  induction l with
  | nil => rfl
  | cons a l ih =>
    by_cases h : p a <;>
      simp [List.filterMap_cons, List.countP_cons, h, ih]

theorem filterMap_if_eq_nil {α : Type} (l : List α) (p : α → Prop)
    [DecidablePred p] (w : α → String) :
    (List.filterMap (fun x => if p x then none else some (w x)) l = [])
      ↔ ∀ x ∈ l, p x := by
  induction l with
  | nil => simp
  | cons a l ih =>
    by_cases h : p a <;> simp [List.filterMap_cons, h, ih]

theorem coefficientWarnings_length (name : String) (c : CoefficientConfig) :
    (coefficientWarnings name c).length = coefficientViolationCount c := by
  simp only [coefficientWarnings, coefficientViolationCount, List.length_append]
  split_ifs <;> rfl

theorem ite_singleton_eq_nil {p : Prop} [Decidable p] (s : String) :
    ((if p then [s] else []) = []) ↔ ¬p := by
  split_ifs with h <;> simp [h]

theorem coefficientWarnings_eq_nil_iff (name : String) (c : CoefficientConfig) :
    coefficientWarnings name c = [] ↔ coefficientInvariantsOk c := by
  simp only [coefficientWarnings, List.append_eq_nil, ite_singleton_eq_nil,
    coefficientInvariantsOk, not_or, not_lt, not_le, not_not, ge_iff_le, gt_iff_lt]
  tauto

theorem length_flatMap_coefficientWarnings (l : List (String × CoefficientConfig)) :
    (l.flatMap fun p => coefficientWarnings p.1 p.2).length
      = (l.map fun p => coefficientViolationCount p.2).sum := by
  induction l with
  | nil => rfl
  | cons a l ih =>
    simp [List.flatMap_cons, coefficientWarnings_length, ih]

/-- C5: under valid physical limits and system parameters,
`validate_config` returns exactly one warning per violated configuration
invariant (enabled coefficient missing from TUNING_ORDER, undefined
TUNING_ORDER name, and each violated per-coefficient check), and returns
the empty list exactly when every such invariant holds. It is a total
function, so it never raises. -/
theorem validate_config_counts_and_empty_iff (cfg : TunerConfig)
    (hphys : cfg.physicalLimitsOk) (hsys : cfg.systemParamsOk) :
    cfg.validate_config.length =
      ((cfg.COEFFICIENTS.filter fun p => p.2.enabled).countP
          fun p => !(decide (p.1 ∈ cfg.TUNING_ORDER)))
      + (cfg.TUNING_ORDER.countP
          fun name => !(decide ((List.lookup name cfg.COEFFICIENTS).isSome = true)))
      + (cfg.COEFFICIENTS.map fun p => coefficientViolationCount p.2).sum
    ∧ (cfg.validate_config = [] ↔
        ((∀ p ∈ cfg.COEFFICIENTS, p.2.enabled = true → p.1 ∈ cfg.TUNING_ORDER) ∧
         (∀ name ∈ cfg.TUNING_ORDER, (List.lookup name cfg.COEFFICIENTS).isSome = true) ∧
         (∀ p ∈ cfg.COEFFICIENTS, coefficientInvariantsOk p.2))) := by
  obtain ⟨hp1, hp2, hp3⟩ := hphys
  obtain ⟨hs1, hs2, hs3, hs4, hs5⟩ := hsys
  have hv : cfg.validate_config =
      ((cfg.COEFFICIENTS.filter fun p => p.2.enabled).filterMap fun p =>
        if p.1 ∈ cfg.TUNING_ORDER then none
        else some ("Enabled coefficient " ++ p.1 ++ " not in TUNING_ORDER")) ++
      (cfg.TUNING_ORDER.filterMap fun name =>
        if (List.lookup name cfg.COEFFICIENTS).isSome = true then none
        else some ("Coefficient " ++ name ++ " in TUNING_ORDER but not defined")) ++
      (cfg.COEFFICIENTS.flatMap fun p => coefficientWarnings p.1 p.2) := by
    rw [TunerConfig.validate_config,
      if_neg (not_le.mpr hp1), if_neg (not_le.mpr hp2), if_neg (not_le.mpr hp3),
      if_neg (not_lt.mpr hs1), if_neg (not_lt.mpr hs2), if_neg (not_le.mpr hs3),
      if_neg (not_le.mpr hs4), if_neg (not_le.mpr hs5)]
    simp
  constructor
  · rw [hv]
    simp only [List.length_append, length_filterMap_if,
      length_flatMap_coefficientWarnings]
  · rw [hv]
    simp only [List.append_eq_nil, filterMap_if_eq_nil, List.flatMap_eq_nil_iff,
      coefficientWarnings_eq_nil_iff, and_assoc]
    constructor
    · rintro ⟨h1, h2, h3⟩
      exact ⟨fun p hp he => h1 p (List.mem_filter.mpr ⟨hp, he⟩), h2, h3⟩
    · rintro ⟨h1, h2, h3⟩
      refine ⟨fun p hp => ?_, h2, h3⟩
      obtain ⟨hm, he⟩ := List.mem_filter.mp hp
      exact h1 p hm he

/-- A valid tuner configuration with one enabled coefficient, used to
witness the validation theorem. -/
def wellFormedTunerConfig : TunerConfig :=
  { COEFFICIENTS :=
      [("kGood",
        { name := "kGood", default_value := 3, min_value := 1, max_value := 5,
          initial_step_size := 1, step_decay_rate := 1, is_integer := false,
          enabled := true, nt_key := "/T/kGood",
          autotune_override := false, autotune_enabled := false,
          autotune_shot_threshold := 10, auto_advance_override := false,
          auto_advance_on_success := false, auto_advance_shot_threshold := 10 })],
    TUNING_ORDER := ["kGood"],
    N_INITIAL_POINTS := 5, N_CALLS_PER_COEFFICIENT := 10,
    MAX_NT_WRITE_RATE_HZ := 50, MAX_NT_READ_RATE_HZ := 10,
    PHYSICAL_MAX_VELOCITY_MPS := 30, PHYSICAL_MIN_VELOCITY_MPS := 1,
    PHYSICAL_MAX_ANGLE_RAD := 2, PHYSICAL_MIN_ANGLE_RAD := 0,
    PHYSICAL_MAX_DISTANCE_M := 20, PHYSICAL_MIN_DISTANCE_M := 0,
    TUNER_UPDATE_RATE_HZ := 10 }

/-- Witness for C5 at a concrete, fully valid configuration. -/
theorem validate_config_counts_and_empty_iff_witness :
    wellFormedTunerConfig.validate_config.length =
      ((wellFormedTunerConfig.COEFFICIENTS.filter fun p => p.2.enabled).countP
          fun p => !(decide (p.1 ∈ wellFormedTunerConfig.TUNING_ORDER)))
      + (wellFormedTunerConfig.TUNING_ORDER.countP
          fun name =>
            !(decide ((List.lookup name wellFormedTunerConfig.COEFFICIENTS).isSome = true)))
      + (wellFormedTunerConfig.COEFFICIENTS.map
          fun p => coefficientViolationCount p.2).sum
    ∧ (wellFormedTunerConfig.validate_config = [] ↔
        ((∀ p ∈ wellFormedTunerConfig.COEFFICIENTS,
            p.2.enabled = true → p.1 ∈ wellFormedTunerConfig.TUNING_ORDER) ∧
         (∀ name ∈ wellFormedTunerConfig.TUNING_ORDER,
            (List.lookup name wellFormedTunerConfig.COEFFICIENTS).isSome = true) ∧
         (∀ p ∈ wellFormedTunerConfig.COEFFICIENTS, coefficientInvariantsOk p.2))) :=
  validate_config_counts_and_empty_iff wellFormedTunerConfig
    (by refine ⟨?_, ?_, ?_⟩ <;> norm_num [wellFormedTunerConfig])
    (by refine ⟨?_, ?_, ?_, ?_, ?_⟩ <;> norm_num [wellFormedTunerConfig])

/-- An enabled coefficient whose bounds are inverted (min_value = 5 >
max_value = 3) and whose initial_step_size is 0. -/
def invalidBoundsCoefficient : CoefficientConfig :=
  { name := "kBad", default_value := 4, min_value := 5, max_value := 3,
    initial_step_size := 0, step_decay_rate := 1, is_integer := false,
    enabled := true, nt_key := "/T/kBad",
    autotune_override := false, autotune_enabled := false,
    autotune_shot_threshold := 10, auto_advance_override := false,
    auto_advance_on_success := false, auto_advance_shot_threshold := 10 }

/-- A loaded configuration whose only coefficient is enabled, listed in
TUNING_ORDER, and violates min < max as well as step > 0; everything
else about the configuration is valid. -/
def invalidBoundsTunerConfig : TunerConfig :=
  { COEFFICIENTS := [("kBad", invalidBoundsCoefficient)],
    TUNING_ORDER := ["kBad"],
    N_INITIAL_POINTS := 5, N_CALLS_PER_COEFFICIENT := 10,
    MAX_NT_WRITE_RATE_HZ := 50, MAX_NT_READ_RATE_HZ := 10,
    PHYSICAL_MAX_VELOCITY_MPS := 30, PHYSICAL_MIN_VELOCITY_MPS := 1,
    PHYSICAL_MAX_ANGLE_RAD := 2, PHYSICAL_MIN_ANGLE_RAD := 0,
    PHYSICAL_MAX_DISTANCE_M := 20, PHYSICAL_MIN_DISTANCE_M := 0,
    TUNER_UPDATE_RATE_HZ := 10 }

/-- C2 (code behaviour at the failing input): an enabled coefficient with
min_value ≥ max_value and initial_step_size ≤ 0 is NOT excluded from the
campaign sequence; `get_enabled_coefficients_in_order` still returns it,
while `validate_config` merely reports three warnings. The spec requires
such a coefficient's campaign to be disabled. -/
theorem invalid_enabled_coefficient_still_selected :
    invalidBoundsTunerConfig.get_enabled_coefficients_in_order
        = [invalidBoundsCoefficient] ∧
    invalidBoundsCoefficient.max_value < invalidBoundsCoefficient.min_value ∧
    invalidBoundsCoefficient.initial_step_size ≤ 0 ∧
    invalidBoundsCoefficient.enabled = true ∧
    invalidBoundsTunerConfig.validate_config.length = 3 := by
  refine ⟨rfl, ?_, ?_, rfl, rfl⟩
  · norm_num [invalidBoundsCoefficient]
  · norm_num [invalidBoundsCoefficient]

/-- C3: with force_global = True, `get_effective_autotune_settings` returns
exactly the global pair, whatever the per-coefficient override fields are. -/
theorem autotune_force_global_ignores_override (c : CoefficientConfig)
    (global_enabled : Bool) (global_threshold : ℤ) :
    c.get_effective_autotune_settings global_enabled global_threshold true =
      (global_enabled, global_threshold) := rfl

/-- C6: autotune and auto-advance policy resolution both compute the
spec's three-tier precedence (force-global, then local override, then
global default) on their respective fields. -/
theorem policy_resolution_same_shape (c : CoefficientConfig)
    (g : Bool) (t : ℤ) (f : Bool) :
    c.get_effective_autotune_settings g t f =
      specPolicyResolution f c.autotune_override
        (c.autotune_enabled, c.autotune_shot_threshold) (g, t) ∧
    c.get_effective_auto_advance_settings g t f =
      specPolicyResolution f c.auto_advance_override
        (c.auto_advance_on_success, c.auto_advance_shot_threshold) (g, t) :=
  ⟨rfl, rfl⟩

/-- One entry of the dashboard coefficient table
(COEFFICIENT_CONFIG in src/dashboard/app.py lines 121-129). -/
structure DashCoefficientBounds where
  step : ℚ
  min : ℚ
  max : ℚ
deriving DecidableEq

/-- Embedding of the dashboard COEFFICIENT_CONFIG dict (app.py lines
121-129), in insertion order. -/
def COEFFICIENT_CONFIG : List (String × DashCoefficientBounds) :=
  [("kDragCoefficient", { step := 0.0001, min := 0.001, max := 0.01 }),
   ("kGravity", { step := 0.01, min := 9.0, max := 10.0 }),
   ("kShotHeight", { step := 0.01, min := 0.0, max := 3.0 }),
   ("kTargetHeight", { step := 0.01, min := 0.0, max := 5.0 }),
   ("kShooterAngle", { step := 1, min := 0, max := 90 }),
   ("kShooterRPM", { step := 50, min := 0, max := 6000 }),
   ("kExitVelocity", { step := 0.1, min := 0, max := 30 })]

/-- Embedding of `clamp_coefficient_value` (app.py lines 135-147):
clamp to the configured bounds, falling back to the default bounds
dict with min 0 and max 100 for an unknown coefficient name. -/
def clamp_coefficient_value (value : ℚ) (coeff_name : String) : ℚ :=
  match List.lookup coeff_name COEFFICIENT_CONFIG with
  | some config => max config.min (min value config.max)
  | none => max 0 (min value 100)

/-- The dashboard per-session statistics mutated by shot recording
(shot_count, total_hits, success_rate entries of app_state). -/
structure DashAppState where
  shot_count : ℤ
  total_hits : ℤ
  success_rate : ℚ
deriving DecidableEq

/-- Embedding of the state update performed by `handle_shot_recording`
(app.py lines 1516-1583) when a HIT or MISS button click records a shot:
increment shot_count, increment total_hits on a hit, and recompute
success_rate (guarding against a non-positive shot count as the source
does). -/
def handle_shot_recording (hit : Bool) (state : DashAppState) : DashAppState :=
  let shot_count := state.shot_count + 1
  let hits := if hit then state.total_hits + 1 else state.total_hits
  { shot_count := shot_count,
    total_hits := hits,
    success_rate := if 0 < shot_count then (hits : ℚ) / (shot_count : ℚ) else 0 }

theorem lookup_mem {β : Type} {l : List (String × β)} {k : String} {v : β}
    (h : List.lookup k l = some v) : ∃ p ∈ l, p.2 = v := by
  induction l with
  | nil => cases h
  | cons a l ih =>
    obtain ⟨k', b⟩ := a
    simp only [List.lookup] at h
    cases hk : (k == k') with
    | true =>
      rw [hk] at h
      exact ⟨(k', b), by simp, by simpa using h⟩
    | false =>
      rw [hk] at h
      obtain ⟨p, hp, hv⟩ := ih h
      exact ⟨p, by simp [hp], hv⟩

theorem coefficient_config_bounds_ordered :
    ∀ p ∈ COEFFICIENT_CONFIG, p.2.min ≤ p.2.max := by
  intro p hp
  fin_cases hp <;> norm_num [COEFFICIENT_CONFIG]

/-- C10: for a coefficient name present in COEFFICIENT_CONFIG,
`clamp_coefficient_value` clamps the value to that coefficient's
configured [min, max]; for an unknown name it clamps to the fallback
bounds [0, 100] instead of failing. -/
theorem clamp_coefficient_value_bounds (value : ℚ) (coeff_name : String) :
    (∀ config, List.lookup coeff_name COEFFICIENT_CONFIG = some config →
      clamp_coefficient_value value coeff_name = max config.min (min value config.max) ∧
      config.min ≤ clamp_coefficient_value value coeff_name ∧
      clamp_coefficient_value value coeff_name ≤ config.max) ∧
    (List.lookup coeff_name COEFFICIENT_CONFIG = none →
      clamp_coefficient_value value coeff_name = max 0 (min value 100) ∧
      0 ≤ clamp_coefficient_value value coeff_name ∧
      clamp_coefficient_value value coeff_name ≤ 100) := by
  constructor
  · intro config h
    have heq : clamp_coefficient_value value coeff_name
        = max config.min (min value config.max) := by
      simp [clamp_coefficient_value, h]
    obtain ⟨p, hp, hpv⟩ := lookup_mem h
    have hmm : config.min ≤ config.max := by
      rw [← hpv]
      exact coefficient_config_bounds_ordered p hp
    refine ⟨heq, ?_, ?_⟩
    · rw [heq]
      exact le_max_left _ _
    · rw [heq]
      exact max_le hmm (min_le_right _ _)
  · intro h
    have heq : clamp_coefficient_value value coeff_name = max 0 (min value 100) := by
      simp [clamp_coefficient_value, h]
    refine ⟨heq, ?_, ?_⟩
    · rw [heq]
      exact le_max_left _ _
    · rw [heq]
      exact max_le (by norm_num) (min_le_right _ _)

/-- Witness for C10: a known coefficient (kGravity, clamped from above)
and an unknown one (clamped to the fallback bounds). -/
theorem clamp_coefficient_value_bounds_witness :
    (clamp_coefficient_value 20 "kGravity"
        = max (9.0 : ℚ) (min 20 10.0) ∧
      (9.0 : ℚ) ≤ clamp_coefficient_value 20 "kGravity" ∧
      clamp_coefficient_value 20 "kGravity" ≤ (10.0 : ℚ)) ∧
    (clamp_coefficient_value 500 "kUnknownCoefficient" = max 0 (min 500 100) ∧
      0 ≤ clamp_coefficient_value 500 "kUnknownCoefficient" ∧
      clamp_coefficient_value 500 "kUnknownCoefficient" ≤ 100) :=
  ⟨(clamp_coefficient_value_bounds 20 "kGravity").1
      { step := 0.01, min := 9.0, max := 10.0 } rfl,
    (clamp_coefficient_value_bounds 500 "kUnknownCoefficient").2 rfl⟩

/-- C9: recording a shot increments shot_count by one, increments
total_hits by one exactly on a hit, sets success_rate to
total_hits / shot_count, and preserves the invariant
0 ≤ total_hits ≤ shot_count together with 0 ≤ success_rate ≤ 1. -/
theorem handle_shot_recording_invariant (hit : Bool) (s : DashAppState)
    (h0 : 0 ≤ s.total_hits) (h1 : s.total_hits ≤ s.shot_count) :
    (handle_shot_recording hit s).shot_count = s.shot_count + 1 ∧
    (handle_shot_recording hit s).total_hits
        = (if hit then s.total_hits + 1 else s.total_hits) ∧
    (handle_shot_recording hit s).success_rate
        = ((handle_shot_recording hit s).total_hits : ℚ)
            / ((handle_shot_recording hit s).shot_count : ℚ) ∧
    0 ≤ (handle_shot_recording hit s).total_hits ∧
    (handle_shot_recording hit s).total_hits
        ≤ (handle_shot_recording hit s).shot_count ∧
    0 ≤ (handle_shot_recording hit s).success_rate ∧
    (handle_shot_recording hit s).success_rate ≤ 1 := by
  have hsc : (0 : ℤ) < s.shot_count + 1 := by linarith
  have hth0 : (0 : ℤ) ≤ (if hit then s.total_hits + 1 else s.total_hits) := by
    cases hit <;> simp <;> linarith
  have hth1 : (if hit then s.total_hits + 1 else s.total_hits) ≤ s.shot_count + 1 := by
    cases hit <;> simp <;> linarith
  have hrate : (handle_shot_recording hit s).success_rate
      = (((if hit then s.total_hits + 1 else s.total_hits) : ℤ) : ℚ)
          / ((s.shot_count + 1 : ℤ) : ℚ) := by
    simp only [handle_shot_recording, if_pos hsc]
  refine ⟨rfl, rfl, ?_, hth0, by simpa using hth1, ?_, ?_⟩
  · exact hrate
  · rw [hrate]
    apply div_nonneg
    · exact_mod_cast hth0
    · exact_mod_cast le_of_lt hsc
  · rw [hrate]
    rw [div_le_one (by exact_mod_cast hsc)]
    exact_mod_cast hth1

/-- Witness for C9: recording a hit from the state with 3 shots and 2 hits. -/
theorem handle_shot_recording_invariant_witness :
    (handle_shot_recording true ⟨3, 2, 2/3⟩).shot_count = 3 + 1 ∧
    (handle_shot_recording true ⟨3, 2, 2/3⟩).total_hits
        = (if true then 2 + 1 else 2) ∧
    (handle_shot_recording true ⟨3, 2, 2/3⟩).success_rate
        = ((handle_shot_recording true ⟨3, 2, 2/3⟩).total_hits : ℚ)
            / ((handle_shot_recording true ⟨3, 2, 2/3⟩).shot_count : ℚ) ∧
    0 ≤ (handle_shot_recording true ⟨3, 2, 2/3⟩).total_hits ∧
    (handle_shot_recording true ⟨3, 2, 2/3⟩).total_hits
        ≤ (handle_shot_recording true ⟨3, 2, 2/3⟩).shot_count ∧
    0 ≤ (handle_shot_recording true ⟨3, 2, 2/3⟩).success_rate ∧
    (handle_shot_recording true ⟨3, 2, 2/3⟩).success_rate ≤ 1 :=
  handle_shot_recording_invariant true ⟨3, 2, 2/3⟩ (by norm_num) (by norm_num)

/-- A snapshot of the remote shot table: the shot-timestamp key and the
per-shot data fields published by the robot. -/
structure RemoteShotTable where
  shot_timestamp : ℚ
  hit : Bool
  distance : ℚ
  angle : ℚ
  velocity : ℚ
deriving DecidableEq

/-- One shot observation as returned to the coordinator. -/
structure ShotData where
  hit : Bool
  distance : ℚ
  angle : ℚ
  velocity : ℚ
  timestamp : ℚ
deriving DecidableEq

/-- The polling state of the robot-link interface: the timestamp of the
last returned observation. -/
structure NTInterfaceState where
  last_shot_timestamp : ℚ
deriving DecidableEq

/-- Modelled from the spec: `read_shot_data` of NetworkTablesInterface
(nt_interface.py is not among the available sources; only its callers
and tests are). Spec section 4.1: poll the shot-timestamp key and return
a new observation only when the timestamp strictly exceeds the last
observed value, reading the remaining shot fields only then; return None
otherwise. -/
def read_shot_data (st : NTInterfaceState) (table : RemoteShotTable) :
    NTInterfaceState × Option ShotData :=
  if st.last_shot_timestamp < table.shot_timestamp then
    ({ last_shot_timestamp := table.shot_timestamp },
      some { hit := table.hit, distance := table.distance, angle := table.angle,
             velocity := table.velocity, timestamp := table.shot_timestamp })
  else (st, none)

/-- Outcomes of polling `read_shot_data` across a sequence of remote
table snapshots, threading the interface state. -/
def pollShotData (st : NTInterfaceState) :
    List RemoteShotTable → List (Option ShotData)
  | [] => []
  | table :: rest =>
    (read_shot_data st table).2 :: pollShotData (read_shot_data st table).1 rest

/-- Timestamps of the observations actually returned during a poll
sequence, in order. -/
def returnedTimestamps (st : NTInterfaceState) (polls : List RemoteShotTable) :
    List ℚ :=
  ((pollShotData st polls).filterMap id).map ShotData.timestamp

theorem returnedTimestamps_chain (st : NTInterfaceState)
    (polls : List RemoteShotTable) :
    List.Chain' (· < ·) (st.last_shot_timestamp :: returnedTimestamps st polls) := by
  induction polls generalizing st with
  | nil => simp [returnedTimestamps, pollShotData]
  | cons table rest ih =>
    by_cases h : st.last_shot_timestamp < table.shot_timestamp
    · have hpoll : returnedTimestamps st (table :: rest)
          = table.shot_timestamp
              :: returnedTimestamps ⟨table.shot_timestamp⟩ rest := by
        simp [returnedTimestamps, pollShotData, read_shot_data, h]
      rw [hpoll]
      have hrest := ih ⟨table.shot_timestamp⟩
      exact List.Chain'.cons h hrest
    · have hpoll : returnedTimestamps st (table :: rest)
          = returnedTimestamps st rest := by
        simp [returnedTimestamps, pollShotData, read_shot_data, h]
      rw [hpoll]
      exact ih st

/-- C7: an observation is returned only when the observed shot timestamp
strictly exceeds the timestamp state of the previously returned
observation (so across any poll sequence the returned timestamps are
strictly increasing above the initial state), and polling a second time
against an unchanged remote table always returns None. -/
theorem read_shot_data_monotonic_staleness (st : NTInterfaceState)
    (table : RemoteShotTable) (polls : List RemoteShotTable) :
    (∀ d, (read_shot_data st table).2 = some d →
      st.last_shot_timestamp < table.shot_timestamp ∧
      d.timestamp = table.shot_timestamp) ∧
    (read_shot_data (read_shot_data st table).1 table).2 = none ∧
    List.Chain' (· < ·)
      (st.last_shot_timestamp :: returnedTimestamps st polls) := by
  refine ⟨?_, ?_, returnedTimestamps_chain st polls⟩
  · intro d hd
    by_cases h : st.last_shot_timestamp < table.shot_timestamp
    · simp only [read_shot_data, if_pos h, Option.some.injEq] at hd
      exact ⟨h, by rw [← hd]⟩
    · simp [read_shot_data, if_neg h] at hd
  · by_cases h : st.last_shot_timestamp < table.shot_timestamp
    · simp [read_shot_data, if_pos h]
    · simp [read_shot_data, if_neg h, h]

/-- Decimal digit characters of a natural number, most significant
first; reference form of the character list underlying `Nat.repr`. -/
def reprChars (n : ℕ) : List Char :=
  if _h : n < 10 then [Nat.digitChar n]
  else reprChars (n / 10) ++ [Nat.digitChar (n % 10)]
decreasing_by
  exact Nat.div_lt_self (by omega) (by norm_num)

theorem toDigitsCore_eq_reprChars (fuel : ℕ) :
    ∀ n ds, n < fuel → Nat.toDigitsCore 10 fuel n ds = reprChars n ++ ds := by
  induction fuel with
  | zero => omega
  | succ fuel ih =>
    intro n ds hn
    by_cases h10 : n / 10 = 0
    · have hlt : n < 10 := by omega
      have hmod : n % 10 = n := Nat.mod_eq_of_lt hlt
      simp only [Nat.toDigitsCore, if_pos h10]
      rw [reprChars, dif_pos hlt, hmod]
      rfl
    · have hge : 10 ≤ n := by
        by_contra hc
        exact h10 (Nat.div_eq_of_lt (by omega))
      have hlt : n / 10 < fuel := by
        have := Nat.div_lt_self (show 0 < n by omega) (show 1 < 10 by norm_num)
        omega
      simp only [Nat.toDigitsCore, if_neg h10]
      rw [ih (n / 10) (Nat.digitChar (n % 10) :: ds) hlt]
      conv_rhs => rw [reprChars]
      rw [dif_neg (show ¬n < 10 by omega)]
      simp

theorem repr_data_eq_reprChars (n : ℕ) : (Nat.repr n).data = reprChars n := by
  show (Nat.toDigits 10 n).asString.data = reprChars n
  rw [Nat.toDigits]
  rw [toDigitsCore_eq_reprChars (n + 1) n [] (by omega)]
  simp [List.asString]

theorem reprChars_one_digit {n : ℕ} (h : n < 10) :
    reprChars n = [Nat.digitChar n] := by
  rw [reprChars, dif_pos h]

theorem reprChars_two_digit {n : ℕ} (h1 : 10 ≤ n) (h2 : n < 100) :
    reprChars n = [Nat.digitChar (n / 10), Nat.digitChar (n % 10)] := by
  rw [reprChars, dif_neg (by omega)]
  rw [reprChars_one_digit (by omega)]
  rfl

theorem reprChars_hundreds_split {a b : ℕ} (ha : 1 ≤ a) (hb : b < 100) :
    reprChars (100 * a + b)
      = reprChars a ++ [Nat.digitChar (b / 10), Nat.digitChar (b % 10)] := by
  rw [reprChars, dif_neg (by omega)]
  have e1 : (100 * a + b) / 10 = 10 * a + b / 10 := by omega
  have e2 : (100 * a + b) % 10 = b % 10 := by omega
  rw [e1, e2]
  rw [reprChars, dif_neg (by omega)]
  have e3 : (10 * a + b / 10) / 10 = a := by omega
  have e4 : (10 * a + b / 10) % 10 = b / 10 := by omega
  rw [e3, e4]
  simp

theorem reprChars_length_one {n : ℕ} (h : n < 10) :
    (reprChars n).length = 1 := by
  rw [reprChars_one_digit h]
  rfl

theorem reprChars_length_two {n : ℕ} (h1 : 10 ≤ n) (h2 : n < 100) :
    (reprChars n).length = 2 := by
  rw [reprChars_two_digit h1 h2]
  rfl

theorem reprChars_length_small {n : ℕ} (h : n < 100) :
    (reprChars n).length ≤ 2 := by
  by_cases h10 : n < 10
  · rw [reprChars_length_one h10]
    omega
  · rw [reprChars_length_two (by omega) h]

theorem reprChars_length_pos (n : ℕ) : 1 ≤ (reprChars n).length := by
  by_cases h10 : n < 10
  · rw [reprChars_length_one h10]
  · rw [reprChars, dif_neg h10]
    simp

/-- Embedding of the robot-IP computation of `TunerConfig._load_toggles`
(config.py line 231): the dot-joined unpadded quotient and remainder of
the team number by 100. -/
def configRobotIP (team_number : ℕ) : String :=
  "10." ++ Nat.repr (team_number / 100) ++ "." ++ Nat.repr (team_number % 100) ++ ".2"

/-- Python str.zfill(4) on a numeral string: left-pad with zeros to
width four. -/
def zfill4 (s : String) : String :=
  ⟨List.replicate (4 - s.data.length) '0' ++ s.data⟩

/-- Embedding of the robot-IP computation of `main` in
scripts/tuner_daemon.py (lines 110-112), positive team-number branch:
zero-pad the team number to four digits and split into two two-digit
groups. -/
def daemonRobotIP (team_number : ℕ) : String :=
  let team_str := zfill4 (Nat.repr team_number)
  "10." ++ ⟨team_str.data.take 2⟩ ++ "." ++ ⟨team_str.data.drop 2⟩ ++ ".2"

theorem string_data_append (s u : String) : (s ++ u).data = s.data ++ u.data := rfl

theorem string_eq_iff_data {s u : String} : s = u ↔ s.data = u.data := by
  constructor
  · intro h
    rw [h]
  · intro h
    cases s
    cases u
    exact congrArg String.mk h

/-- C8 counterexample: at team number 101 the two computations give
"10.1.1.2" (config) and "10.01.01.2" (daemon), which differ as strings. -/
theorem configRobotIP_ne_daemonRobotIP_at_101 :
    (1 ≤ 101 ∧ 101 ≤ 9999) ∧
    configRobotIP 101 = "10.1.1.2" ∧
    daemonRobotIP 101 = "10.01.01.2" ∧
    configRobotIP 101 ≠ daemonRobotIP 101 := by
  refine ⟨⟨by decide, by decide⟩, by decide, by decide, by decide⟩

/-- C8 amended: for a team number between 1 and 9999, the config IP
string and the daemon IP string agree exactly when both two-digit groups
need no zero padding, that is when the team number is at least 1000 and
its remainder modulo 100 is at least 10; otherwise the daemon string
carries zero-padded groups and the two strings differ. -/
theorem configRobotIP_eq_daemonRobotIP_iff (t : ℕ) (h1 : 1 ≤ t) (h2 : t ≤ 9999) :
    (configRobotIP t = daemonRobotIP t) ↔ (1000 ≤ t ∧ 10 ≤ t % 100) := by
  have hb99 : t % 100 < 100 := Nat.mod_lt _ (by norm_num)
  have l1 : ("10." : String).data.length = 3 := rfl
  have l2 : ("." : String).data.length = 1 := rfl
  have l3 : (".2" : String).data.length = 2 := rfl
  have hconfig : (configRobotIP t).data
      = ("10." : String).data ++ (Nat.repr (t / 100)).data ++ ("." : String).data
          ++ (Nat.repr (t % 100)).data ++ (".2" : String).data := rfl
  rw [repr_data_eq_reprChars, repr_data_eq_reprChars] at hconfig
  have hzfill : (zfill4 (Nat.repr t)).data
      = List.replicate (4 - (reprChars t).length) '0' ++ reprChars t := by
    show List.replicate (4 - (Nat.repr t).data.length) '0' ++ (Nat.repr t).data = _
    rw [repr_data_eq_reprChars]
  have hdaemon : (daemonRobotIP t).data
      = ("10." : String).data ++ (zfill4 (Nat.repr t)).data.take 2
          ++ ("." : String).data ++ (zfill4 (Nat.repr t)).data.drop 2
          ++ (".2" : String).data := rfl
  by_cases hcase : 1000 ≤ t ∧ 10 ≤ t % 100
  · obtain ⟨ht1000, hb10⟩ := hcase
    have ha10 : 10 ≤ t / 100 := by omega
    have ha99 : t / 100 < 100 := by omega
    have hsplit : reprChars t
        = reprChars (t / 100)
            ++ [Nat.digitChar (t % 100 / 10), Nat.digitChar (t % 100 % 10)] := by
      conv_lhs => rw [show t = 100 * (t / 100) + t % 100 by omega]
      exact reprChars_hundreds_split (by omega) hb99
    have h2a := reprChars_two_digit ha10 ha99
    have h2b := reprChars_two_digit hb10 hb99
    have hlen4 : (reprChars t).length = 4 := by
      rw [hsplit, List.length_append, reprChars_length_two ha10 ha99]
      rfl
    have hz : (zfill4 (Nat.repr t)).data = reprChars t := by
      rw [hzfill, hlen4]
      simp
    have htake : (zfill4 (Nat.repr t)).data.take 2 = reprChars (t / 100) := by
      rw [hz, hsplit, h2a]
      rfl
    have hdrop : (zfill4 (Nat.repr t)).data.drop 2
        = [Nat.digitChar (t % 100 / 10), Nat.digitChar (t % 100 % 10)] := by
      rw [hz, hsplit, h2a]
      rfl
    have heq : configRobotIP t = daemonRobotIP t := by
      rw [string_eq_iff_data, hconfig, hdaemon, htake, hdrop, h2b]
    simp [heq, ht1000, hb10]
  · have hla2 : (reprChars (t / 100)).length ≤ 2 := reprChars_length_small (by omega)
    have hsum : (reprChars (t / 100)).length + (reprChars (t % 100)).length ≤ 3 := by
      rcases not_and_or.mp hcase with h | h
      · have hsmall : t / 100 < 10 := by omega
        rw [reprChars_length_one hsmall]
        have := reprChars_length_small hb99
        omega
      · have hsmall : t % 100 < 10 := by omega
        rw [reprChars_length_one hsmall]
        omega
    have hlent : (reprChars t).length ≤ 4 := by
      by_cases h100 : t < 100
      · have := reprChars_length_small h100
        omega
      · have hsplit : reprChars t
            = reprChars (t / 100)
                ++ [Nat.digitChar (t % 100 / 10), Nat.digitChar (t % 100 % 10)] := by
          conv_lhs => rw [show t = 100 * (t / 100) + t % 100 by omega]
          exact reprChars_hundreds_split (by omega) hb99
        rw [hsplit, List.length_append]
        simp only [List.length_cons, List.length_nil]
        omega
    have hzlen : (zfill4 (Nat.repr t)).data.length = 4 := by
      rw [hzfill, List.length_append, List.length_replicate]
      omega
    have hdlen : (daemonRobotIP t).data.length = 10 := by
      rw [hdaemon]
      simp only [List.length_append, List.length_take, List.length_drop, hzlen,
        l1, l2, l3]
      omega
    have hclen : (configRobotIP t).data.length
        = 6 + ((reprChars (t / 100)).length + (reprChars (t % 100)).length) := by
      rw [hconfig]
      simp only [List.length_append, l1, l2, l3]
      omega
    have hne : configRobotIP t ≠ daemonRobotIP t := by
      intro heq
      have hll : (configRobotIP t).data.length = (daemonRobotIP t).data.length := by
        rw [heq]
      omega
    exact iff_of_false hne hcase

/-- Witness for the amended C8 at team number 5892, where the two
computations agree. -/
theorem configRobotIP_eq_daemonRobotIP_iff_witness :
    ((1 : ℕ) ≤ 5892 ∧ (5892 : ℕ) ≤ 9999) ∧
    (configRobotIP 5892 = daemonRobotIP 5892 ↔ (1000 ≤ 5892 ∧ 10 ≤ 5892 % 100)) :=
  ⟨⟨by decide, by decide⟩,
    configRobotIP_eq_daemonRobotIP_iff 5892 (by decide) (by decide)⟩

end MLtune

